import Mathlib

set_option maxHeartbeats 1000000

/-!
Shallow embedding of the `energy-vad` repository
(`src/energy_vad/__init__.py`): an energy-based voice activity
detector with a self-calibration phase.

Python floats are modelled as real numbers; the `statistics` module's
`mean`, `median` (average of the two middle elements for even length)
and `stdev` (sample standard deviation) are translated in the `Stats`
namespace.  Python exceptions are modelled with `Except`:
`ValueError` for a wrong chunk size becomes `invalidInputSize`,
`statistics.StatisticsError` (fewer than two data points for `stdev`)
becomes `insufficientCalibrationData`, and Python's `ZeroDivisionError`
becomes `zeroDivision`.
-/

/-- Module-level constant `_SAMPLE_RATE = 16000`. -/
def SAMPLE_RATE : ℕ := 16000

/-- Module-level constant `_SAMPLE_WIDTH = 2` (16-bit samples). -/
def SAMPLE_WIDTH : ℕ := 2

/-- Decoding of one signed little-endian 16-bit sample from two bytes,
as `array.array("h", chunk)` does on a little-endian machine. -/
def toInt16 (lo hi : ℕ) : ℤ :=
  let u := lo % 256 + 256 * (hi % 256)
  if u < 32768 then (u : ℤ) else (u : ℤ) - 65536

/-- Decoding of a byte string into signed 16-bit samples
(`array.array("h", chunk)`). -/
def decodeSamples : List ℕ → List ℤ
  | lo :: hi :: rest => toInt16 lo hi :: decodeSamples rest
  | _ => []

namespace Stats

/-- `statistics.mean`: arithmetic mean. -/
noncomputable def mean (l : List ℝ) : ℝ := l.sum / l.length

/-- `statistics.variance`: sample variance (Bessel's correction,
denominator `n - 1`). -/
noncomputable def variance (l : List ℝ) : ℝ :=
  (l.map (fun x => (x - mean l) ^ 2)).sum / ((l.length : ℝ) - 1)

/-- `statistics.stdev`: sample standard deviation. -/
noncomputable def stdev (l : List ℝ) : ℝ := Real.sqrt (variance l)

/-- Insertion into a sorted list (helper for `sorted`). -/
noncomputable def insertSorted (x : ℝ) : List ℝ → List ℝ
  | [] => [x]
  | y :: ys => if x ≤ y then x :: y :: ys else y :: insertSorted x ys

/-- Ascending sort, as Python's `sorted`. -/
noncomputable def sortList : List ℝ → List ℝ
  | [] => []
  | x :: xs => insertSorted x (sortList xs)

/-- `statistics.median`: middle element of the sorted data for odd
length, average of the two middle elements for even length. -/
noncomputable def median (l : List ℝ) : ℝ :=
  if l.length % 2 = 1 then (sortList l).getD (l.length / 2) 0
  else ((sortList l).getD (l.length / 2 - 1) 0 + (sortList l).getD (l.length / 2) 0) / 2

end Stats

/-- The raw (negated) RMS energy of a chunk's samples:
`energy = -math.sqrt(sum(x**2 for x in chunk_array) / len(chunk_array))`. -/
noncomputable def chunkEnergy (a : List ℤ) : ℝ :=
  -Real.sqrt ((a.map (fun (x : ℤ) => ((x : ℝ)) ^ 2)).sum / a.length)

/-- The debiased energy of a chunk's samples:
`debiased_energy = math.sqrt(sum((x + energy) ** 2 for x in chunk_array) / len(chunk_array))`. -/
noncomputable def chunkDebiasedEnergy (a : List ℤ) : ℝ :=
  Real.sqrt ((a.map (fun (x : ℤ) => ((x : ℝ) + chunkEnergy a) ^ 2)).sum / a.length)

/-- Errors `process_chunk` can raise: `ValueError` on a bad chunk size,
`statistics.StatisticsError` when `stdev` gets fewer than two data
points, and `ZeroDivisionError` (division by zero, float or int). -/
inductive VadError where
  | invalidInputSize : VadError
  | insufficientCalibrationData : VadError
  | zeroDivision : VadError
  deriving DecidableEq

/-- The mutable state of an `EnergyVad` instance.  The fields
`samples_per_chunk`, `calibrate_seconds` and
`calibrate_zscore_threshold` are set in `__init__` and never changed;
`threshold`, `calibrate_seconds_left` and `calibrate_energies` evolve. -/
@[ext]
structure EnergyVad where
  samples_per_chunk : ℕ
  threshold : Option ℝ
  calibrate_seconds : ℝ
  calibrate_zscore_threshold : ℝ
  calibrate_seconds_left : ℝ
  calibrate_energies : List ℝ

namespace EnergyVad

/-- Derived constant `self.bytes_per_chunk = samples_per_chunk * _SAMPLE_WIDTH`. -/
def bytes_per_chunk (v : EnergyVad) : ℕ := v.samples_per_chunk * SAMPLE_WIDTH

/-- Derived constant `self.seconds_per_chunk = samples_per_chunk / _SAMPLE_RATE`. -/
noncomputable def seconds_per_chunk (v : EnergyVad) : ℝ :=
  (v.samples_per_chunk : ℝ) / (SAMPLE_RATE : ℝ)

/-- `EnergyVad.__init__`: stores the configuration, sets
`_calibrate_seconds_left = calibrate_seconds` and
`_calibrate_energies = []`. -/
def init (threshold : Option ℝ) (samples_per_chunk : ℕ)
    (calibrate_seconds : ℝ) (calibrate_zscore_threshold : ℝ) : EnergyVad :=
  { samples_per_chunk := samples_per_chunk
    threshold := threshold
    calibrate_seconds := calibrate_seconds
    calibrate_zscore_threshold := calibrate_zscore_threshold
    calibrate_seconds_left := calibrate_seconds
    calibrate_energies := [] }

/-- `EnergyVad.reset_calibration`: reset threshold and calibration time. -/
def reset_calibration (v : EnergyVad) : EnergyVad :=
  { v with
    calibrate_seconds_left := v.calibrate_seconds
    calibrate_energies := []
    threshold := none }

end EnergyVad

/-- The list used for threshold finalization: the calibration energies
whose median z-score is strictly below the z-score threshold, falling
back to the full list when everything is filtered out
(`[...] or self._calibrate_energies`). -/
noncomputable def finalEnergies (l : List ℝ) (zt : ℝ) : List ℝ :=
  let kept := l.filter fun x => decide ((x - Stats.median l) / Stats.stdev l < zt)
  if kept.isEmpty then l else kept

/-- `EnergyVad.process_chunk`, modelled with explicit state passing:
returns the Python return value (`none` = calibrating, `some b` =
speech/silence decision) together with the updated state, or the
exception the call raises.  Matches the source line by line: size
check first, then the energy computation (whose division raises
`ZeroDivisionError` when the chunk decodes to zero samples), then the
calibration/decision branches. -/
noncomputable def EnergyVad.process_chunk (v : EnergyVad) (chunk : List ℕ) :
    Except VadError (Option Bool × EnergyVad) :=
  if chunk.length ≠ v.bytes_per_chunk then
    .error .invalidInputSize
  else
    let chunk_array := decodeSamples chunk
    if chunk_array.length = 0 then
      .error .zeroDivision
    else
      let debiased_energy := chunkDebiasedEnergy chunk_array
      match v.threshold with
      | none =>
        if v.calibrate_seconds_left ≤ 0 then
          if v.calibrate_energies.length < 2 then
            .error .insufficientCalibrationData
          else if Stats.stdev v.calibrate_energies = 0 then
            .error .zeroDivision
          else
            let energies := finalEnergies v.calibrate_energies v.calibrate_zscore_threshold
            if energies.length < 2 then
              .error .insufficientCalibrationData
            else
              .ok (none, { v with threshold := some (Stats.mean energies + Stats.stdev energies) })
        else
          .ok (none, { v with
            calibrate_energies := v.calibrate_energies ++ [debiased_energy]
            calibrate_seconds_left := v.calibrate_seconds_left - v.seconds_per_chunk })
      | some t => .ok (some (decide (debiased_energy > t)), v)

/-- One driver step: feed a chunk, keep the new state on success and
the old state when the call raises. -/
noncomputable def stepChunk (v : EnergyVad) (c : List ℕ) : EnergyVad :=
  match v.process_chunk c with
  | .ok (_, w) => w
  | .error _ => v

/-- Feeding the first `k` chunks of the stream `f`. -/
noncomputable def runVad (v : EnergyVad) (f : ℕ → List ℕ) : ℕ → EnergyVad
  | 0 => v
  | Nat.succ k => stepChunk (runVad v f k) (f k)

/-- The calibration energies collected from the first `m` chunks of a
stream. -/
noncomputable def calibSeq (f : ℕ → List ℕ) (m : ℕ) : List ℝ :=
  (List.range m).map fun i => chunkDebiasedEnergy (decodeSamples (f i))

/-- A concrete stream for exercising calibration: one all-zero sample
chunk, one chunk holding the single sample -1, then zeros. -/
def streamW : ℕ → List ℕ := fun k => if k = 1 then [255, 255] else [0, 0]

/-- A 480-byte all-zero chunk (240 zero samples). -/
def chunkZeros : List ℕ := List.replicate 480 0

/-- The all-zero (digital silence) stream. -/
def zeroStream : ℕ → List ℕ := fun _ => chunkZeros

/-- The default configuration with no preset threshold:
`EnergyVad()` = 240 samples per chunk, 0.5 calibration seconds,
z-score threshold 1. -/
noncomputable def vad0 : EnergyVad := EnergyVad.init none 240 (1 / 2) 1

/-- Modelled from the spec's words (section 4.1 step 2): raw RMS energy
`rms = sqrt( mean(sample_i^2) )`. -/
noncomputable def specRms (samples : List ℤ) : ℝ :=
  Real.sqrt (Stats.mean (samples.map (fun (x : ℤ) => ((x : ℝ)) ^ 2)))

/-- Modelled from the spec's words (section 4.1 step 3): with
`bias = -rms`, `debiased = sqrt( mean( (sample_i + bias)^2 ) )`. -/
noncomputable def specDebiased (samples : List ℤ) : ℝ :=
  Real.sqrt (Stats.mean (samples.map (fun (x : ℤ) => ((x : ℝ) + -specRms samples) ^ 2)))

/-- A detector constructed with a preset threshold of 1. -/
noncomputable def vadT : EnergyVad := EnergyVad.init (some 1) 240 (1 / 2) 1

/-- A stream agreeing with the all-zero stream on its first four chunks
only. -/
def zeroStreamAlt : ℕ → List ℕ := fun i => if i ≤ 3 then chunkZeros else []

lemma process_chunk_badlen (v : EnergyVad) (chunk : List ℕ)
    (h : chunk.length ≠ v.bytes_per_chunk) :
    v.process_chunk chunk = .error .invalidInputSize := by
  unfold EnergyVad.process_chunk
  rw [if_pos h]

lemma process_chunk_active (v : EnergyVad) (chunk : List ℕ) (t : ℝ)
    (hth : v.threshold = some t)
    (hlen : chunk.length = v.bytes_per_chunk)
    (hn : (decodeSamples chunk).length ≠ 0) :
    v.process_chunk chunk
      = .ok (some (decide (chunkDebiasedEnergy (decodeSamples chunk) > t)), v) := by
  unfold EnergyVad.process_chunk
  rw [if_neg (not_not_intro hlen)]
  simp only [hn, if_false, hth, reduceIte]

lemma process_chunk_append (v : EnergyVad) (chunk : List ℕ)
    (hth : v.threshold = none)
    (hleft : 0 < v.calibrate_seconds_left)
    (hlen : chunk.length = v.bytes_per_chunk)
    (hn : (decodeSamples chunk).length ≠ 0) :
    v.process_chunk chunk
      = .ok (none, { v with
          calibrate_energies := v.calibrate_energies ++ [chunkDebiasedEnergy (decodeSamples chunk)]
          calibrate_seconds_left := v.calibrate_seconds_left - v.seconds_per_chunk }) := by
  unfold EnergyVad.process_chunk
  rw [if_neg (not_not_intro hlen)]
  simp only [hn, if_false, hth]
  rw [if_neg (not_le.mpr hleft)]

lemma process_chunk_finalize_few (v : EnergyVad) (chunk : List ℕ)
    (hth : v.threshold = none)
    (hleft : v.calibrate_seconds_left ≤ 0)
    (hlen : chunk.length = v.bytes_per_chunk)
    (hn : (decodeSamples chunk).length ≠ 0)
    (hfew : v.calibrate_energies.length < 2) :
    v.process_chunk chunk = .error .insufficientCalibrationData := by
  unfold EnergyVad.process_chunk
  rw [if_neg (not_not_intro hlen)]
  simp only [hn, if_false, hth]
  rw [if_pos hleft, if_pos hfew]

lemma process_chunk_finalize_zero (v : EnergyVad) (chunk : List ℕ)
    (hth : v.threshold = none)
    (hleft : v.calibrate_seconds_left ≤ 0)
    (hlen : chunk.length = v.bytes_per_chunk)
    (hn : (decodeSamples chunk).length ≠ 0)
    (h2 : 2 ≤ v.calibrate_energies.length)
    (hsd : Stats.stdev v.calibrate_energies = 0) :
    v.process_chunk chunk = .error .zeroDivision := by
  unfold EnergyVad.process_chunk
  rw [if_neg (not_not_intro hlen)]
  simp only [hn, if_false, hth]
  rw [if_pos hleft, if_neg (not_lt.mpr h2), if_pos hsd]

lemma process_chunk_finalize_ok (v : EnergyVad) (chunk : List ℕ)
    (hth : v.threshold = none)
    (hleft : v.calibrate_seconds_left ≤ 0)
    (hlen : chunk.length = v.bytes_per_chunk)
    (hn : (decodeSamples chunk).length ≠ 0)
    (h2 : 2 ≤ v.calibrate_energies.length)
    (hsd : Stats.stdev v.calibrate_energies ≠ 0)
    (h2' : 2 ≤ (finalEnergies v.calibrate_energies v.calibrate_zscore_threshold).length) :
    v.process_chunk chunk
      = .ok (none, { v with threshold := some (Stats.mean (finalEnergies v.calibrate_energies v.calibrate_zscore_threshold) + Stats.stdev (finalEnergies v.calibrate_energies v.calibrate_zscore_threshold)) }) := by
  unfold EnergyVad.process_chunk
  rw [if_neg (not_not_intro hlen)]
  simp only [hn, if_false, hth]
  rw [if_pos hleft, if_neg (not_lt.mpr h2), if_neg hsd, if_neg (not_lt.mpr h2')]

lemma process_chunk_finalize_few2 (v : EnergyVad) (chunk : List ℕ)
    (hth : v.threshold = none)
    (hleft : v.calibrate_seconds_left ≤ 0)
    (hlen : chunk.length = v.bytes_per_chunk)
    (hn : (decodeSamples chunk).length ≠ 0)
    (h2 : 2 ≤ v.calibrate_energies.length)
    (hsd : Stats.stdev v.calibrate_energies ≠ 0)
    (hk : (finalEnergies v.calibrate_energies v.calibrate_zscore_threshold).length < 2) :
    v.process_chunk chunk = .error .insufficientCalibrationData := by
  unfold EnergyVad.process_chunk
  rw [if_neg (not_not_intro hlen)]
  simp only [hn, if_false, hth]
  rw [if_pos hleft, if_neg (not_lt.mpr h2), if_neg hsd, if_pos hk]

lemma decodeSamples_length : ∀ l : List ℕ, (decodeSamples l).length = l.length / 2
  | [] => rfl
  | [_] => by simp [decodeSamples]
  | lo :: hi :: rest => by
    simp only [decodeSamples, List.length_cons, decodeSamples_length rest]
    omega

lemma decodeSamples_replicate_zero : ∀ k : ℕ,
    decodeSamples (List.replicate (2 * k) 0) = List.replicate k (0 : ℤ)
  | 0 => rfl
  | k + 1 => by
    have h : 2 * (k + 1) = (2 * k) + 1 + 1 := by ring
    rw [h, List.replicate_succ, List.replicate_succ]
    simp only [decodeSamples, decodeSamples_replicate_zero k, List.replicate_succ]
    norm_num [toInt16]

lemma chunkEnergy_replicate_zero (k : ℕ) : chunkEnergy (List.replicate k (0 : ℤ)) = 0 := by
  have h1 : (List.replicate k (0 : ℤ)).map (fun (x : ℤ) => ((x : ℝ)) ^ 2)
      = List.replicate k (0 : ℝ) := by
    rw [List.map_replicate]; norm_num
  rw [chunkEnergy, h1, List.sum_replicate]
  simp

lemma chunkDebiasedEnergy_replicate_zero (k : ℕ) :
    chunkDebiasedEnergy (List.replicate k (0 : ℤ)) = 0 := by
  have h1 : (List.replicate k (0 : ℤ)).map
      (fun (x : ℤ) => ((x : ℝ) + chunkEnergy (List.replicate k (0 : ℤ))) ^ 2)
      = List.replicate k (0 : ℝ) := by
    rw [List.map_replicate, chunkEnergy_replicate_zero]; norm_num
  rw [chunkDebiasedEnergy, h1, List.sum_replicate]
  simp

lemma mean_replicate_zero (k : ℕ) : Stats.mean (List.replicate k (0 : ℝ)) = 0 := by
  simp [Stats.mean]

lemma variance_replicate_zero (k : ℕ) : Stats.variance (List.replicate k (0 : ℝ)) = 0 := by
  have h1 : (List.replicate k (0 : ℝ)).map
      (fun x => (x - Stats.mean (List.replicate k (0 : ℝ))) ^ 2)
      = List.replicate k (0 : ℝ) := by
    rw [List.map_replicate, mean_replicate_zero]; norm_num
  rw [Stats.variance, h1, List.sum_replicate]
  simp

lemma stdev_replicate_zero (k : ℕ) : Stats.stdev (List.replicate k (0 : ℝ)) = 0 := by
  simp [Stats.stdev, variance_replicate_zero]

lemma runVad_calib (n : ℕ) (s z : ℝ) (f : ℕ → List ℕ)
    (hn : 0 < n) (hf : ∀ k, (f k).length = n * SAMPLE_WIDTH) :
    ∀ k : ℕ, (∀ j : ℕ, j < k → (0 : ℝ) < s - j * ((n : ℝ) / 16000)) →
    runVad (EnergyVad.init none n s z) f k
      = { samples_per_chunk := n, threshold := none, calibrate_seconds := s,
          calibrate_zscore_threshold := z,
          calibrate_seconds_left := s - k * ((n : ℝ) / 16000),
          calibrate_energies := calibSeq f k } := by
  intro k
  induction k with
  | zero =>
    intro _
    simp [runVad, EnergyVad.init, calibSeq, EnergyVad.mk.injEq]
  | succ k ih =>
    intro hk
    have hkk := ih (fun j hj => hk j (Nat.lt_trans hj (Nat.lt_succ_self k)))
    rw [runVad, hkk]
    have hlen : (f k).length = n * SAMPLE_WIDTH := hf k
    have hdec : (decodeSamples (f k)).length ≠ 0 := by
      rw [decodeSamples_length, hlen]
      simp [SAMPLE_WIDTH]
      omega
    have hstep := process_chunk_append
      { samples_per_chunk := n, threshold := none, calibrate_seconds := s,
        calibrate_zscore_threshold := z,
        calibrate_seconds_left := s - k * ((n : ℝ) / 16000),
        calibrate_energies := calibSeq f k }
      (f k) rfl (hk k (Nat.lt_succ_self k)) hlen hdec
    rw [stepChunk, hstep]
    simp only [EnergyVad.mk.injEq, EnergyVad.seconds_per_chunk, calibSeq,
      List.range_succ, List.map_append, List.map_cons, List.map_nil]
    refine ⟨trivial, trivial, trivial, trivial, ?_, trivial⟩
    push_cast [SAMPLE_RATE]
    ring

lemma process_chunk_zerolen (v : EnergyVad) (chunk : List ℕ)
    (hlen : chunk.length = v.bytes_per_chunk)
    (h0 : (decodeSamples chunk).length = 0) :
    v.process_chunk chunk = .error .zeroDivision := by
  unfold EnergyVad.process_chunk
  rw [if_neg (not_not_intro hlen)]
  simp only [h0, if_true, reduceIte]

lemma stepChunk_threshold_some (v : EnergyVad) (c : List ℕ) (t : ℝ)
    (hth : v.threshold = some t) : stepChunk v c = v := by
  by_cases h1 : c.length = v.bytes_per_chunk
  · by_cases h2 : (decodeSamples c).length = 0
    · rw [stepChunk, process_chunk_zerolen v c h1 h2]
    · rw [stepChunk, process_chunk_active v c t hth h1 h2]
  · rw [stepChunk, process_chunk_badlen v c h1]

lemma runVad_stable (v : EnergyVad) (f : ℕ → List ℕ) (t : ℝ)
    (hth : v.threshold = some t) : ∀ k : ℕ, runVad v f k = v := by
  intro k
  induction k with
  | zero => rfl
  | succ k ih => rw [runVad, ih, stepChunk_threshold_some v (f k) t hth]

lemma decode_length_ne_zero (n : ℕ) (hn : 0 < n) (c : List ℕ)
    (hc : c.length = n * SAMPLE_WIDTH) : (decodeSamples c).length ≠ 0 := by
  rw [decodeSamples_length, hc]
  simp only [SAMPLE_WIDTH]
  omega

theorem calibration_duration
    (n : ℕ) (s z : ℝ) (f : ℕ → List ℕ) (m : ℕ)
    (hn : 0 < n)
    (hf : ∀ k, (f k).length = n * SAMPLE_WIDTH)
    (hm : m = Nat.ceil (s / ((n : ℝ) / 16000)))
    (hm2 : 2 ≤ m)
    (hsd : Stats.stdev (calibSeq f m) ≠ 0)
    (hkept : 2 ≤ (finalEnergies (calibSeq f m) z).length) :
    (∀ k : ℕ, k ≤ m →
      ∃ w, (runVad (EnergyVad.init none n s z) f k).process_chunk (f k) = .ok (none, w)) ∧
    (∀ k : ℕ, m < k →
      ∃ b w, (runVad (EnergyVad.init none n s z) f k).process_chunk (f k) = .ok (some b, w)) ∧
    Nat.ceil (s / ((n : ℝ) / 16000)) ≤ m + 1 ∧
    m + 1 ≤ Nat.ceil (s / ((n : ℝ) / 16000)) + 1 := by
  have hnr : (0 : ℝ) < (n : ℝ) := by exact_mod_cast hn
  have hcpos : (0 : ℝ) < (n : ℝ) / 16000 := by positivity
  have hkcal : ∀ j : ℕ, j < m → (0 : ℝ) < s - j * ((n : ℝ) / 16000) := by
    intro j hj
    rw [hm] at hj
    have h1 : (j : ℝ) < s / ((n : ℝ) / 16000) := Nat.lt_ceil.mp hj
    have h2 : (j : ℝ) * ((n : ℝ) / 16000) < s := (lt_div_iff₀ hcpos).mp h1
    linarith
  have hleft : s - m * ((n : ℝ) / 16000) ≤ 0 := by
    have h1 : s / ((n : ℝ) / 16000) ≤ (m : ℝ) := by
      rw [hm]; exact Nat.le_ceil _
    have h2 : s ≤ (m : ℝ) * ((n : ℝ) / 16000) := (div_le_iff₀ hcpos).mp h1
    linarith
  have hdec : ∀ k : ℕ, (decodeSamples (f k)).length ≠ 0 :=
    fun k => decode_length_ne_zero n hn (f k) (hf k)
  have hrm := runVad_calib n s z f hn hf m hkcal
  have hlen2 : 2 ≤ (calibSeq f m).length := by
    simpa [calibSeq] using hm2
  have hfinal : (runVad (EnergyVad.init none n s z) f m).process_chunk (f m)
      = .ok (none,
        { samples_per_chunk := n,
          threshold := some (Stats.mean (finalEnergies (calibSeq f m) z) + Stats.stdev (finalEnergies (calibSeq f m) z)),
          calibrate_seconds := s, calibrate_zscore_threshold := z,
          calibrate_seconds_left := s - m * ((n : ℝ) / 16000),
          calibrate_energies := calibSeq f m }) := by
    rw [hrm]
    exact process_chunk_finalize_ok _ (f m) rfl hleft (hf m) (hdec m) hlen2 hsd hkept
  have hstab : ∀ k : ℕ, m + 1 ≤ k →
      runVad (EnergyVad.init none n s z) f k
        = { samples_per_chunk := n,
            threshold := some (Stats.mean (finalEnergies (calibSeq f m) z) + Stats.stdev (finalEnergies (calibSeq f m) z)),
            calibrate_seconds := s, calibrate_zscore_threshold := z,
            calibrate_seconds_left := s - m * ((n : ℝ) / 16000),
            calibrate_energies := calibSeq f m } := by
    intro k hk
    induction k, hk using Nat.le_induction with
    | base =>
      have h1 : runVad (EnergyVad.init none n s z) f (m + 1)
          = stepChunk (runVad (EnergyVad.init none n s z) f m) (f m) := rfl
      rw [h1, stepChunk, hfinal]
    | succ k hk ih =>
      have h1 : runVad (EnergyVad.init none n s z) f (k + 1)
          = stepChunk (runVad (EnergyVad.init none n s z) f k) (f k) := rfl
      rw [h1, ih, stepChunk_threshold_some _ (f k) _ rfl]
  refine ⟨?_, ?_, ?_, ?_⟩
  · intro k hk
    rcases lt_or_eq_of_le hk with hlt | heq
    · have hrk := runVad_calib n s z f hn hf k (fun j hj => hkcal j (Nat.lt_trans hj hlt))
      rw [hrk]
      exact ⟨_, process_chunk_append _ (f k) rfl (hkcal k hlt) (hf k) (hdec k)⟩
    · subst heq
      exact ⟨_, hfinal⟩
  · intro k hk
    rw [hstab k hk]
    exact ⟨_, _, process_chunk_active _ (f k) _ rfl (hf k) (hdec k)⟩
  · omega
  · omega

lemma decode_w0 : decodeSamples [0, 0] = [(0 : ℤ)] := by decide

lemma decode_w1 : decodeSamples [255, 255] = [(-1 : ℤ)] := by decide

lemma chunkEnergy_neg_one : chunkEnergy [(-1 : ℤ)] = -1 := by
  rw [chunkEnergy]
  norm_num

lemma chunkDebiasedEnergy_neg_one : chunkDebiasedEnergy [(-1 : ℤ)] = 2 := by
  rw [chunkDebiasedEnergy, chunkEnergy_neg_one]
  norm_num
  rw [show (4 : ℝ) = 2 ^ 2 by norm_num, Real.sqrt_sq (by norm_num)]

lemma chunkDebiasedEnergy_zero_one : chunkDebiasedEnergy [(0 : ℤ)] = 0 := by
  simpa using chunkDebiasedEnergy_replicate_zero 1

lemma calibSeqW : calibSeq streamW 2 = [0, 2] := by
  rw [calibSeq]
  have h0 : streamW 0 = [0, 0] := rfl
  have h1 : streamW 1 = [255, 255] := rfl
  simp only [List.range_succ, List.range_zero, List.map_append, List.map_cons, List.map_nil,
    h0, h1, decode_w0, decode_w1, chunkDebiasedEnergy_zero_one, chunkDebiasedEnergy_neg_one]
  rfl

lemma mean_w : Stats.mean [(0 : ℝ), 2] = 1 := by
  rw [Stats.mean]
  norm_num

lemma stdev_w : Stats.stdev [(0 : ℝ), 2] = Real.sqrt 2 := by
  rw [Stats.stdev, Stats.variance, mean_w]
  norm_num

lemma median_w : Stats.median [(0 : ℝ), 2] = 1 := by
  rw [Stats.median]
  have hs : Stats.sortList [(0 : ℝ), 2] = [0, 2] := by
    rw [Stats.sortList, Stats.sortList, Stats.sortList, Stats.insertSorted, Stats.insertSorted]
    rw [if_pos (by norm_num : (0 : ℝ) ≤ 2)]
  rw [hs]
  norm_num

lemma finalEnergies_w : finalEnergies [(0 : ℝ), 2] 1 = [0, 2] := by
  rw [finalEnergies, median_w, stdev_w]
  have hs2 : (0 : ℝ) < Real.sqrt 2 := Real.sqrt_pos.mpr (by norm_num)
  have hx0 : ((0 : ℝ) - 1) / Real.sqrt 2 < 1 := by
    have : ((0 : ℝ) - 1) / Real.sqrt 2 < 0 := div_neg_of_neg_of_pos (by norm_num) hs2
    linarith
  have hx2 : ((2 : ℝ) - 1) / Real.sqrt 2 < 1 := by
    rw [div_lt_one hs2]
    exact (Real.lt_sqrt (by norm_num)).mpr (by norm_num)
  simp only [List.filter, hx0, hx2, decide_eq_true_eq, if_true]
  norm_num [hx0, hx2]

lemma decode_chunkZeros : decodeSamples chunkZeros = List.replicate 240 (0 : ℤ) := by
  have h : chunkZeros = List.replicate (2 * 240) 0 := by norm_num [chunkZeros]
  rw [h, decodeSamples_replicate_zero]

lemma chunkDebiasedEnergy_chunkZeros :
    chunkDebiasedEnergy (decodeSamples chunkZeros) = 0 := by
  rw [decode_chunkZeros, chunkDebiasedEnergy_replicate_zero]

lemma calibSeq_zeroStream (m : ℕ) : calibSeq zeroStream m = List.replicate m (0 : ℝ) := by
  induction m with
  | zero => rfl
  | succ m ih =>
    rw [calibSeq, List.range_succ, List.map_append, ← calibSeq, ih]
    simp only [List.map_cons, List.map_nil, zeroStream, chunkDebiasedEnergy_chunkZeros]
    rw [List.replicate_succ']

lemma zeroStream_length (k : ℕ) : (zeroStream k).length = 240 * SAMPLE_WIDTH := by
  show (List.replicate 480 0).length = 240 * SAMPLE_WIDTH
  rw [List.length_replicate]
  simp only [SAMPLE_WIDTH]

lemma zeroCalib34 : ∀ j : ℕ, j < 34 → (0 : ℝ) < 1 / 2 - j * ((240 : ℕ) / 16000 : ℝ) := by
  intro j hj
  have hj33 : (j : ℝ) ≤ 33 := by exact_mod_cast Nat.lt_succ_iff.mp hj
  have h1 : (j : ℝ) * (3 / 200) ≤ 33 * (3 / 200) :=
    mul_le_mul_of_nonneg_right hj33 (by norm_num)
  have h2 : ((240 : ℕ) / 16000 : ℝ) = 3 / 200 := by norm_num
  rw [h2]
  linarith

lemma runVad34 : runVad vad0 zeroStream 34
    = { samples_per_chunk := 240, threshold := none, calibrate_seconds := 1 / 2,
        calibrate_zscore_threshold := 1,
        calibrate_seconds_left := 1 / 2 - ((34 : ℕ) : ℝ) * ((240 : ℕ) / 16000 : ℝ),
        calibrate_energies := List.replicate 34 (0 : ℝ) } := by
  rw [vad0, runVad_calib 240 (1 / 2) 1 zeroStream (by norm_num) zeroStream_length 34 zeroCalib34,
    calibSeq_zeroStream]

lemma runVad_succ_of_ok (v : EnergyVad) (f : ℕ → List ℕ) (k : ℕ) (r : Option Bool)
    (w : EnergyVad) (h : (runVad v f k).process_chunk (f k) = .ok (r, w)) :
    runVad v f (k + 1) = w := by
  show stepChunk (runVad v f k) (f k) = w
  rw [stepChunk, h]

lemma zero_stream_35th :
    (runVad vad0 zeroStream 34).process_chunk chunkZeros = .error .zeroDivision := by
  rw [runVad34]
  apply process_chunk_finalize_zero _ chunkZeros rfl
  · norm_num
  · show (List.replicate 480 0).length = _
    rw [List.length_replicate]
    rfl
  · rw [decode_chunkZeros, List.length_replicate]
    norm_num
  · rw [List.length_replicate]
    norm_num
  · exact stdev_replicate_zero 34

lemma chunkZeros_length : chunkZeros.length = 480 := by
  rw [chunkZeros, List.length_replicate]

lemma decode_chunkZeros_length : (decodeSamples chunkZeros).length ≠ 0 := by
  rw [decode_chunkZeros, List.length_replicate]
  norm_num

lemma zero_stream_calibrating (k : ℕ) (hk : k ≤ 33) :
    (runVad vad0 zeroStream k).process_chunk chunkZeros
      = .ok (none, runVad vad0 zeroStream (k + 1)) := by
  have hkcal : ∀ j : ℕ, j < k → (0 : ℝ) < 1 / 2 - j * ((240 : ℕ) / 16000 : ℝ) :=
    fun j hj => zeroCalib34 j (by omega)
  have hrk := runVad_calib 240 (1 / 2) 1 zeroStream (by norm_num) zeroStream_length k hkcal
  obtain ⟨w, hw⟩ : ∃ w, (runVad vad0 zeroStream k).process_chunk chunkZeros = .ok (none, w) := by
    rw [vad0, hrk]
    refine ⟨_, process_chunk_append _ chunkZeros rfl (zeroCalib34 k (by omega)) ?_ decode_chunkZeros_length⟩
    rw [chunkZeros_length]
    rfl
  rw [hw, runVad_succ_of_ok vad0 zeroStream k none w hw]

lemma chunkEnergy_eq_neg_specRms (a : List ℤ) : chunkEnergy a = -specRms a := by
  rw [chunkEnergy, specRms, Stats.mean, List.length_map]

lemma chunkDebiased_eq_spec (a : List ℤ) : chunkDebiasedEnergy a = specDebiased a := by
  rw [chunkDebiasedEnergy, specDebiased, Stats.mean, List.length_map,
    ← chunkEnergy_eq_neg_specRms]

lemma decode_length_spc (v : EnergyVad) (chunk : List ℕ)
    (hlen : chunk.length = v.bytes_per_chunk) :
    (decodeSamples chunk).length = v.samples_per_chunk := by
  rw [decodeSamples_length, hlen, EnergyVad.bytes_per_chunk]
  simp only [SAMPLE_WIDTH]
  omega

lemma stdev_pair_same (a : ℝ) : Stats.stdev [a, a] = 0 := by
  rw [Stats.stdev, Stats.variance, Stats.mean]
  norm_num

/-- C1: for every chunk of exactly `bytes_per_chunk` bytes,
`process_chunk` interprets it as `samples_per_chunk` signed 16-bit
integers and computes the debiased energy as
`sqrt(mean((sample_i + bias)^2))` with `bias = -rms`,
`rms = sqrt(mean(sample_i^2))`; this exact formula is the energy used
both for calibration (the value appended to `calibrate_energies`) and
for decisions (the value compared with the threshold). -/
theorem debiased_energy_formula (v : EnergyVad) (chunk : List ℕ)
    (hlen : chunk.length = v.bytes_per_chunk) (hn : 0 < v.samples_per_chunk) :
    (decodeSamples chunk).length = v.samples_per_chunk ∧
    chunkDebiasedEnergy (decodeSamples chunk) = specDebiased (decodeSamples chunk) ∧
    (v.threshold = none → 0 < v.calibrate_seconds_left →
      v.process_chunk chunk = .ok (none, { v with
        calibrate_energies := v.calibrate_energies ++ [specDebiased (decodeSamples chunk)]
        calibrate_seconds_left := v.calibrate_seconds_left - v.seconds_per_chunk })) ∧
    (∀ t : ℝ, v.threshold = some t →
      v.process_chunk chunk = .ok (some (decide (specDebiased (decodeSamples chunk) > t)), v)) := by
  have hdl := decode_length_spc v chunk hlen
  have hne : (decodeSamples chunk).length ≠ 0 := by omega
  refine ⟨hdl, chunkDebiased_eq_spec _, ?_, ?_⟩
  · intro hth hpos
    rw [← chunkDebiased_eq_spec]
    exact process_chunk_append v chunk hth hpos hlen hne
  · intro t hth
    rw [← chunkDebiased_eq_spec]
    exact process_chunk_active v chunk t hth hlen hne

/-- Witness for C1 at the default-size detector with preset threshold 1
and an all-zero 480-byte chunk. -/
theorem debiased_energy_formula_witness :
    (decodeSamples chunkZeros).length = vadT.samples_per_chunk :=
  (debiased_energy_formula vadT chunkZeros (by rw [chunkZeros_length]; rfl)
    (by show (0 : ℕ) < 240; norm_num)).1

/-- C2: with a set threshold and a valid-size chunk, `process_chunk`
returns Speech (`some true`) iff the debiased energy is strictly
greater than the threshold, and Silence (`some false`) otherwise — in
particular at equality. -/
theorem decision_rule (v : EnergyVad) (chunk : List ℕ) (t : ℝ)
    (hth : v.threshold = some t)
    (hlen : chunk.length = v.bytes_per_chunk) (hn : 0 < v.samples_per_chunk) :
    (v.process_chunk chunk = .ok (some true, v)
      ↔ t < chunkDebiasedEnergy (decodeSamples chunk)) ∧
    (chunkDebiasedEnergy (decodeSamples chunk) ≤ t →
      v.process_chunk chunk = .ok (some false, v)) := by
  have hdl := decode_length_spc v chunk hlen
  have hne : (decodeSamples chunk).length ≠ 0 := by omega
  have h := process_chunk_active v chunk t hth hlen hne
  constructor
  · rw [h]
    simp [decide_eq_true_eq]
  · intro hle
    rw [h, decide_eq_false (not_lt.mpr hle : ¬chunkDebiasedEnergy (decodeSamples chunk) > t)]

/-- Witness for C2: an all-zero chunk has debiased energy 0 ≤ 1, so the
preset-threshold detector reports Silence. -/
theorem decision_rule_witness :
    vadT.process_chunk chunkZeros = .ok (some false, vadT) :=
  (decision_rule vadT chunkZeros 1 rfl (by rw [chunkZeros_length]; rfl)
    (by show (0 : ℕ) < 240; norm_num)).2
    (by rw [chunkDebiasedEnergy_chunkZeros]; norm_num)

/-- C10: once the threshold is set, a valid-size chunk leaves the whole
detector state unchanged (the returned state is the input state, so
`calibrate_energies` is not cleared and `calibrate_seconds_left` keeps
its value); and at a successful finalization the new state keeps
`calibrate_energies` and `calibrate_seconds_left` unchanged while only
`threshold` becomes set. -/
theorem active_frame (v : EnergyVad) (chunk : List ℕ) :
    (∀ t : ℝ, v.threshold = some t → chunk.length = v.bytes_per_chunk →
      0 < v.samples_per_chunk → ∃ b, v.process_chunk chunk = .ok (some b, v)) ∧
    (v.threshold = none → v.calibrate_seconds_left ≤ 0 →
      ∀ r w, v.process_chunk chunk = .ok (r, w) →
        r = none ∧ w.calibrate_energies = v.calibrate_energies ∧
        w.calibrate_seconds_left = v.calibrate_seconds_left ∧
        w.samples_per_chunk = v.samples_per_chunk ∧ w.threshold.isSome = true) := by
  constructor
  · intro t hth hlen hn
    have hdl := decode_length_spc v chunk hlen
    have hne : (decodeSamples chunk).length ≠ 0 := by omega
    exact ⟨_, process_chunk_active v chunk t hth hlen hne⟩
  · intro hth hleft r w h
    by_cases h1 : chunk.length = v.bytes_per_chunk
    · by_cases h2 : (decodeSamples chunk).length = 0
      · rw [process_chunk_zerolen v chunk h1 h2] at h
        exact absurd h (by simp)
      · by_cases h3 : v.calibrate_energies.length < 2
        · rw [process_chunk_finalize_few v chunk hth hleft h1 h2 h3] at h
          exact absurd h (by simp)
        · by_cases h4 : Stats.stdev v.calibrate_energies = 0
          · rw [process_chunk_finalize_zero v chunk hth hleft h1 h2 (not_lt.mp h3) h4] at h
            exact absurd h (by simp)
          · by_cases h5 : (finalEnergies v.calibrate_energies v.calibrate_zscore_threshold).length < 2
            · rw [process_chunk_finalize_few2 v chunk hth hleft h1 h2 (not_lt.mp h3) h4 h5] at h
              exact absurd h (by simp)
            · rw [process_chunk_finalize_ok v chunk hth hleft h1 h2 (not_lt.mp h3) h4 (not_lt.mp h5)] at h
              simp only [Except.ok.injEq, Prod.mk.injEq] at h
              obtain ⟨hr, hw⟩ := h
              subst hr
              subst hw
              exact ⟨rfl, rfl, rfl, rfl, rfl⟩
    · rw [process_chunk_badlen v chunk h1] at h
      exact absurd h (by simp)

/-- Witness for C10: the preset-threshold detector accepts a valid
chunk and the call succeeds. -/
theorem active_frame_witness : (vadT.process_chunk chunkZeros).isOk = true := by
  obtain ⟨b, h⟩ := (active_frame vadT chunkZeros).1 1 rfl (by rw [chunkZeros_length]; rfl)
    (by show (0 : ℕ) < 240; norm_num)
  rw [h]
  rfl

/-- C6: a chunk whose byte length differs from `bytes_per_chunk` always
fails with `InvalidInputSize` (the functional model returns the error
with no successor state, so no state mutation occurs), and a chunk of
exactly `bytes_per_chunk` bytes never produces that error. -/
theorem invalid_input_size (v : EnergyVad) (chunk : List ℕ) :
    (chunk.length ≠ v.bytes_per_chunk → v.process_chunk chunk = .error .invalidInputSize) ∧
    (chunk.length = v.bytes_per_chunk → v.process_chunk chunk ≠ .error .invalidInputSize) := by
  refine ⟨process_chunk_badlen v chunk, ?_⟩
  intro hlen
  by_cases h2 : (decodeSamples chunk).length = 0
  · rw [process_chunk_zerolen v chunk hlen h2]
    simp
  · cases hth : v.threshold with
    | some t =>
      rw [process_chunk_active v chunk t hth hlen h2]
      simp
    | none =>
      by_cases h3 : v.calibrate_seconds_left ≤ 0
      · by_cases h4 : v.calibrate_energies.length < 2
        · rw [process_chunk_finalize_few v chunk hth h3 hlen h2 h4]
          simp
        · by_cases h5 : Stats.stdev v.calibrate_energies = 0
          · rw [process_chunk_finalize_zero v chunk hth h3 hlen h2 (not_lt.mp h4) h5]
            simp
          · by_cases h6 : (finalEnergies v.calibrate_energies v.calibrate_zscore_threshold).length < 2
            · rw [process_chunk_finalize_few2 v chunk hth h3 hlen h2 (not_lt.mp h4) h5 h6]
              simp
            · rw [process_chunk_finalize_ok v chunk hth h3 hlen h2 (not_lt.mp h4) h5 (not_lt.mp h6)]
              simp
      · rw [process_chunk_append v chunk hth (not_le.mp h3) hlen h2]
        simp

/-- Witness for C6: the empty byte string is rejected by the default
detector. -/
theorem invalid_input_size_witness :
    EnergyVad.process_chunk vad0 [] = .error .invalidInputSize :=
  (invalid_input_size vad0 []).1 (by show (0 : ℕ) ≠ 480; norm_num)

/-- C5 amended: a valid-size, nonempty chunk never raises provided that,
whenever finalization is attempted, the collected energies number at
least 2, their sample stdev is nonzero, and the z-score filtering
(with its empty fallback) keeps at least 2 elements.  (The unamended
claim fails: see the counterexample, where stdev = 0 makes the z-score
division raise.) -/
theorem no_unexpected_failure (v : EnergyVad) (chunk : List ℕ)
    (hlen : chunk.length = v.bytes_per_chunk) (hn : 0 < v.samples_per_chunk)
    (hcal : v.threshold = none → v.calibrate_seconds_left ≤ 0 →
      2 ≤ v.calibrate_energies.length ∧ Stats.stdev v.calibrate_energies ≠ 0 ∧
      2 ≤ (finalEnergies v.calibrate_energies v.calibrate_zscore_threshold).length) :
    ∃ r w, v.process_chunk chunk = .ok (r, w) := by
  have hdl := decode_length_spc v chunk hlen
  have hne : (decodeSamples chunk).length ≠ 0 := by omega
  cases hth : v.threshold with
  | some t => exact ⟨_, _, process_chunk_active v chunk t hth hlen hne⟩
  | none =>
    by_cases h3 : v.calibrate_seconds_left ≤ 0
    · obtain ⟨ha, hb, hc⟩ := hcal hth h3
      exact ⟨_, _, process_chunk_finalize_ok v chunk hth h3 hlen hne ha hb hc⟩
    · exact ⟨_, _, process_chunk_append v chunk hth (not_le.mp h3) hlen hne⟩

/-- Witness for C5's amended theorem: the freshly constructed default
detector processes an all-zero chunk successfully. -/
theorem no_unexpected_failure_witness : (vad0.process_chunk chunkZeros).isOk = true := by
  obtain ⟨r, w, h⟩ := no_unexpected_failure vad0 chunkZeros (by rw [chunkZeros_length]; rfl)
    (by show (0 : ℕ) < 240; norm_num)
    (by
      intro _ hleft
      have h12 : ((1 : ℝ) / 2) ≤ 0 := hleft
      norm_num at h12)
  rw [h]
  rfl

/-- C8: when finalization is attempted (threshold unset, countdown
expired) with fewer than 2 collected energies, the call fails with
`InsufficientCalibrationData`; and this situation indeed arises when
`calibrate_seconds` is at most one chunk's duration: the second call
already fails this way. -/
theorem insufficient_calibration :
    (∀ (v : EnergyVad) (chunk : List ℕ), chunk.length = v.bytes_per_chunk →
      0 < v.samples_per_chunk → v.threshold = none → v.calibrate_seconds_left ≤ 0 →
      v.calibrate_energies.length < 2 →
      v.process_chunk chunk = .error .insufficientCalibrationData) ∧
    (∀ (n : ℕ) (s z : ℝ) (f : ℕ → List ℕ), 0 < n → 0 < s → s ≤ (n : ℝ) / 16000 →
      (∀ k, (f k).length = n * SAMPLE_WIDTH) →
      (runVad (EnergyVad.init none n s z) f 1).process_chunk (f 1)
        = .error .insufficientCalibrationData) := by
  constructor
  · intro v chunk hlen hn hth hleft hfew
    have hdl := decode_length_spc v chunk hlen
    exact process_chunk_finalize_few v chunk hth hleft hlen (by omega) hfew
  · intro n s z f hn hs hsc hf
    have hk1 : ∀ j : ℕ, j < 1 → (0 : ℝ) < s - j * ((n : ℝ) / 16000) := by
      intro j hj
      have hj0 : j = 0 := by omega
      rw [hj0]
      push_cast
      linarith
    rw [runVad_calib n s z f hn hf 1 hk1]
    refine process_chunk_finalize_few _ (f 1) rfl ?_ (hf 1) ?_ ?_
    · push_cast
      linarith
    · exact decode_length_ne_zero n hn (f 1) (hf 1)
    · simp [calibSeq]

/-- Witness for C8: a state with an expired countdown and no collected
energies fails with `InsufficientCalibrationData`. -/
theorem insufficient_calibration_witness :
    EnergyVad.process_chunk ⟨240, none, 1 / 2, 1, 0, []⟩ chunkZeros
      = .error .insufficientCalibrationData :=
  insufficient_calibration.1 ⟨240, none, 1 / 2, 1, 0, []⟩ chunkZeros
    (by rw [chunkZeros_length]; rfl) (by norm_num) rfl le_rfl (by norm_num)

/-- Witness for C7: with `samples_per_chunk = 1` and
`calibrate_seconds = 1/8000` (two chunks), calls 0 and 1 calibrate on
the concrete stream `streamW`, whose two distinct energies let
finalization succeed. -/
theorem calibration_duration_witness :
    ((runVad (EnergyVad.init none 1 ((1 : ℝ) / 8000) 1) streamW 0).process_chunk (streamW 0)).isOk
      = true := by
  obtain ⟨w, h⟩ := (calibration_duration 1 ((1 : ℝ) / 8000) 1 streamW 2
    (by norm_num)
    (by
      intro k
      by_cases hk : k = 1 <;> simp [streamW, hk, SAMPLE_WIDTH])
    (by
      rw [show ((1 : ℝ) / 8000) / (((1 : ℕ) : ℝ) / 16000) = 2 by norm_num]
      exact (Nat.ceil_ofNat 2).symm)
    (by norm_num)
    (by
      rw [calibSeqW, stdev_w]
      exact Real.sqrt_ne_zero'.mpr (by norm_num))
    (by
      rw [calibSeqW, finalEnergies_w]
      norm_num)).1 0 (by norm_num)
  rw [h]
  rfl

/-- C3 amended: finalization with at least 2 collected energies, nonzero
stdev and at least 2 kept (or fallback) elements sets
`threshold = mean(kept) + stdev(kept)` where `kept` filters by median
z-score strictly below the z-score threshold with fallback to the full
list, returns Calibrating (`none`), and the finalizing chunk's own
energy is not consulted (the state keeps the old `calibrate_energies`).
(The unamended claim fails when stdev = 0: see the counterexample.) -/
theorem finalize_threshold (v : EnergyVad) (chunk : List ℕ)
    (hlen : chunk.length = v.bytes_per_chunk) (hn : 0 < v.samples_per_chunk)
    (hth : v.threshold = none) (hleft : v.calibrate_seconds_left ≤ 0)
    (h2 : 2 ≤ v.calibrate_energies.length)
    (hsd : Stats.stdev v.calibrate_energies ≠ 0)
    (hkept : 2 ≤ (finalEnergies v.calibrate_energies v.calibrate_zscore_threshold).length) :
    v.process_chunk chunk = .ok (none, { v with threshold := some (Stats.mean (finalEnergies v.calibrate_energies v.calibrate_zscore_threshold) + Stats.stdev (finalEnergies v.calibrate_energies v.calibrate_zscore_threshold)) }) ∧
    finalEnergies v.calibrate_energies v.calibrate_zscore_threshold = (if (v.calibrate_energies.filter fun x => decide ((x - Stats.median v.calibrate_energies) / Stats.stdev v.calibrate_energies < v.calibrate_zscore_threshold)).isEmpty then v.calibrate_energies else v.calibrate_energies.filter fun x => decide ((x - Stats.median v.calibrate_energies) / Stats.stdev v.calibrate_energies < v.calibrate_zscore_threshold)) := by
  have hdl := decode_length_spc v chunk hlen
  have hne : (decodeSamples chunk).length ≠ 0 := by omega
  exact ⟨process_chunk_finalize_ok v chunk hth hleft hlen hne h2 hsd hkept, rfl⟩

/-- Witness for C3's amended theorem: a state with collected energies
`[0, 2]` finalizes to threshold `mean + stdev` of the kept list. -/
theorem finalize_threshold_witness :
    EnergyVad.process_chunk ⟨240, none, 1 / 2, 1, 0, [(0 : ℝ), 2]⟩ chunkZeros = .ok (none, ⟨240, some (Stats.mean (finalEnergies [(0 : ℝ), 2] 1) + Stats.stdev (finalEnergies [(0 : ℝ), 2] 1)), 1 / 2, 1, 0, [(0 : ℝ), 2]⟩) :=
  (finalize_threshold ⟨240, none, 1 / 2, 1, 0, [(0 : ℝ), 2]⟩ chunkZeros
    (by rw [chunkZeros_length]; rfl) (by norm_num) rfl le_rfl (by norm_num)
    (by rw [show Stats.stdev [(0 : ℝ), 2] = Real.sqrt 2 from stdev_w]; exact Real.sqrt_ne_zero'.mpr (by norm_num))
    (by rw [show finalEnergies [(0 : ℝ), 2] 1 = [0, 2] from finalEnergies_w]; norm_num)).1

/-- C3 counterexample: a finalization attempt on two equal collected
energies does not set a threshold and return Calibrating as the claim
states — it raises a division-by-zero error (the z-score divides by a
zero stdev). -/
theorem finalize_threshold_cex :
    EnergyVad.process_chunk ⟨240, none, 1 / 2, 1, -1, [(1 : ℝ), 1]⟩ chunkZeros
      = .error .zeroDivision :=
  process_chunk_finalize_zero _ chunkZeros rfl (by norm_num)
    (by rw [chunkZeros_length]; rfl) decode_chunkZeros_length (by norm_num)
    (stdev_pair_same 1)

/-- C4 counterexample: after 34 all-zero chunks, the 35th all-zero
chunk does not yield Silence as the claim states — it raises a
division-by-zero error, because the 34 collected energies are all 0 and
their stdev is 0. -/
theorem zero_stream_not_silence :
    (runVad vad0 zeroStream 34).process_chunk chunkZeros = .error .zeroDivision :=
  zero_stream_35th

/-- C4 amended: with the default configuration, the first 34 all-zero
chunks each return Calibrating, collecting 34 zero energies, and the
35th all-zero chunk raises a division-by-zero error at threshold
finalization (zero stdev), so no Silence decision is produced on an
all-zero stream. -/
theorem zero_stream_outcome :
    (∀ k : ℕ, k ≤ 33 → (runVad vad0 zeroStream k).process_chunk chunkZeros
      = .ok (none, runVad vad0 zeroStream (k + 1))) ∧
    (runVad vad0 zeroStream 34).process_chunk chunkZeros = .error .zeroDivision ∧
    (runVad vad0 zeroStream 34).calibrate_energies = List.replicate 34 (0 : ℝ) := by
  refine ⟨zero_stream_calibrating, zero_stream_35th, ?_⟩
  rw [runVad34]

/-- Witness for C4's amended theorem: the 6th all-zero chunk is still a
Calibrating call. -/
theorem zero_stream_outcome_witness :
    (runVad vad0 zeroStream 5).process_chunk chunkZeros
      = .ok (none, runVad vad0 zeroStream 6) :=
  zero_stream_outcome.1 5 (by norm_num)

/-- C5 counterexample: a reachable state (calibrate over two all-zero
chunks with `calibrate_seconds = 3/100`) has two collected calibration
energies, yet the valid-size all-zero chunk that triggers finalization
raises a division-by-zero error — a failure mode beyond
`InvalidInputSize` and `InsufficientCalibrationData`. -/
theorem no_unexpected_failure_cex :
    (runVad (EnergyVad.init none 240 (3 / 100) 1) zeroStream 2).process_chunk chunkZeros
      = .error .zeroDivision ∧
    (runVad (EnergyVad.init none 240 (3 / 100) 1) zeroStream 2).calibrate_energies.length = 2 := by
  have hk2 : ∀ j : ℕ, j < 2 → (0 : ℝ) < 3 / 100 - j * ((240 : ℕ) / 16000 : ℝ) := by
    intro j hj
    interval_cases j <;> norm_num
  have hrun := runVad_calib 240 (3 / 100) 1 zeroStream (by norm_num) zeroStream_length 2 hk2
  constructor
  · rw [hrun, calibSeq_zeroStream]
    apply process_chunk_finalize_zero _ chunkZeros rfl
    · norm_num
    · rw [chunkZeros_length]
      rfl
    · exact decode_chunkZeros_length
    · rw [List.length_replicate]
    · exact stdev_replicate_zero 2
  · rw [hrun, calibSeq_zeroStream]
    rw [List.length_replicate]

/-- C9: `process_chunk` is deterministic — the result of call `k`
depends only on the configuration and the chunks fed so far — and
`reset_calibration` returns the detector to the freshly constructed
calibrating state with the same configuration, so replaying the same
chunk sequence reproduces the very same state trajectory (hence the
same threshold after the same number of Calibrating calls). -/
theorem determinism_and_reset (v : EnergyVad) :
    (∀ f g : ℕ → List ℕ, ∀ k : ℕ, (∀ i : ℕ, i ≤ k → f i = g i) →
      (runVad v f k).process_chunk (f k) = (runVad v g k).process_chunk (g k)) ∧
    (∀ f : ℕ → List ℕ, ∀ k : ℕ,
      runVad v.reset_calibration f k
        = runVad (EnergyVad.init none v.samples_per_chunk v.calibrate_seconds
            v.calibrate_zscore_threshold) f k) := by
  constructor
  · intro f g k hfg
    have hrun : ∀ j : ℕ, j ≤ k → runVad v f j = runVad v g j := by
      intro j hj
      induction j with
      | zero => rfl
      | succ j ih =>
        have hjk : j ≤ k := Nat.le_of_succ_le hj
        show stepChunk (runVad v f j) (f j) = stepChunk (runVad v g j) (g j)
        rw [ih hjk, hfg j hjk]
    rw [hrun k le_rfl, hfg k le_rfl]
  · intro f k
    have hre : v.reset_calibration
        = EnergyVad.init none v.samples_per_chunk v.calibrate_seconds
            v.calibrate_zscore_threshold := rfl
    rw [hre]

/-- Witness for C9: two streams agreeing on their first four chunks
give the same fourth result on the default detector. -/
theorem determinism_and_reset_witness :
    (runVad vad0 zeroStream 3).process_chunk (zeroStream 3)
      = (runVad vad0 zeroStreamAlt 3).process_chunk (zeroStreamAlt 3) :=
  (determinism_and_reset vad0).1 zeroStream zeroStreamAlt 3
    (by
      intro i hi
      simp [zeroStream, zeroStreamAlt, hi])

